import Mathlib

/-!
Verification of the libcbm pool/flux compute engine specification against the
repository sources.

The repository sources available here contain the notebook front-ends and
documentation of the engine: in particular, examples/pool_flux_matrix_ops.md
carries executable numpy reference loops (pools_expected, flux_expected) that
the repository's own tests use to emulate and check the ComputePools /
ComputeFlux kernel entry points; the kernel binary itself and the python
driver modules are not among the sources.  Where a definition embeds one of
those reference loops its doc comment points at the notebook; where the
underlying entry point is absent the definition is modelled from the spec and
says so.

Scalars are embedded as rationals: every claim treated here is about the
structure and ordering of the computations (which matrix is applied to which
stand, in which order, what accumulates where), not about rounding of
double-precision arithmetic.
-/

namespace LibCBM

/-- A matrix operation: a batch of P-by-P transfer matrices together with a
per-stand selector (the matrix_index vector) picking which matrix each of the
N stands uses, as built by AllocateOp/SetOp in
examples/pool_flux_matrix_ops.md. -/
structure Op (N P : ℕ) where
  nmat : ℕ
  matrices : Fin nmat → Matrix (Fin P) (Fin P) ℚ
  matrixIndex : Fin N → Fin nmat

/-- The matrix the op selects for stand i, i.e. op.matrices[op.index[i]]. -/
def Op.mat {N P : ℕ} (op : Op N P) (i : Fin N) : Matrix (Fin P) (Fin P) ℚ :=
  op.matrices (op.matrixIndex i)

/-- An op whose single matrix is shared by every stand (matrix_index all 0),
the pattern `np.full(n_stands, 0)` of the notebooks. -/
def broadcastOp {P : ℕ} (N : ℕ) (M : Matrix (Fin P) (Fin P) ℚ) : Op N P :=
  ⟨1, fun _ => M, fun _ => 0⟩

/-- The N-by-P bank of per-stand pool vectors. -/
abbrev Pools (N P : ℕ) := Fin N → Fin P → ℚ

/-- Modelled from the spec: the ComputePools kernel entry point itself is not
among the repository sources (only its notebook callers and the equivalent
numpy reference loop are).  One op of the kernel loop: every stand i with
enabled[i] = true has its row replaced by the vector-matrix product
pools[i] * op.matrices[op.index[i]]; stands with enabled[i] = false are left
untouched. -/
def computePoolsStep {N P : ℕ} (op : Op N P) (pools : Pools N P)
    (enabled : Fin N → Bool) : Pools N P :=
  fun i => if enabled i then Matrix.vecMul (pools i) (op.mat i) else pools i

/-- Modelled from the spec: ComputePools applies the ops strictly in list
order, each op transforming the enabled stands' rows as in computePoolsStep. -/
def computePools {N P : ℕ} (ops : List (Op N P)) (pools : Pools N P)
    (enabled : Fin N → Bool) : Pools N P :=
  ops.foldl (fun p op => computePoolsStep op p enabled) pools

/-- Sequential in-place update of a per-stand table: fold over a list of stand
indices, replacing row k by a function of the row's current value, exactly as
the numpy reference loops update pools_working one stand at a time. -/
def seqUpdate {N : ℕ} {α : Type} (g : Fin N → α → α) (l : List (Fin N))
    (t : Fin N → α) : Fin N → α :=
  l.foldl (fun t k => Function.update t k (g k (t k))) t

/-- The numpy reference loop pools_expected of
examples/pool_flux_matrix_ops.md (lines 243-249): iterate over the ops (outer
loop), then sequentially over the stands (inner loop), replacing
pools_working[k,:] by np.matmul(pools_working[k,:], mats[i][op_indices[k,i]]).
No enabled mask appears in the reference loop. -/
def poolsExpected {N P : ℕ} (ops : List (Op N P)) (pools : Pools N P) :
    Pools N P :=
  ops.foldl
    (fun p op =>
      seqUpdate (fun k row => Matrix.vecMul row (op.mat k)) (List.finRange N) p)
    pools

lemma seqUpdate_eq {N : ℕ} {α : Type} (g : Fin N → α → α) :
    ∀ (l : List (Fin N)), l.Nodup → ∀ (t : Fin N → α) (k : Fin N),
      seqUpdate g l t k = if k ∈ l then g k (t k) else t k := by
  intro l
  induction l with
  | nil => intro _ t k; simp [seqUpdate]
  | cons a l ih =>
    intro hnd t k
    rw [List.nodup_cons] at hnd
    have step : seqUpdate g (a :: l) t =
        seqUpdate g l (Function.update t a (g a (t a))) := rfl
    rw [step, ih hnd.2]
    by_cases hk : k = a
    · subst hk
      have hknl : k ∉ l := hnd.1
      simp [hknl, Function.update_same]
    · simp only [Function.update_noteq hk, List.mem_cons]
      by_cases hkl : k ∈ l
      · simp [hkl, hk]
      · simp [hkl, hk]

lemma seqUpdate_finRange {N : ℕ} {α : Type} (g : Fin N → α → α)
    (t : Fin N → α) :
    seqUpdate g (List.finRange N) t = fun k => g k (t k) := by
  funext k
  rw [seqUpdate_eq g _ (List.nodup_finRange N) t k,
    if_pos (List.mem_finRange k)]

lemma computePools_allEnabled {N P : ℕ} :
    ∀ (ops : List (Op N P)) (pools : Pools N P),
      computePools ops pools (fun _ => true) = poolsExpected ops pools := by
  intro ops
  induction ops with
  | nil => intro pools; rfl
  | cons op rest ih =>
    intro pools
    have h1 : computePools (op :: rest) pools (fun _ => true) =
        computePools rest (computePoolsStep op pools (fun _ => true))
          (fun _ => true) := rfl
    have h2 : computePoolsStep op pools (fun _ => true) =
        fun k => Matrix.vecMul (pools k) (op.mat k) := by
      funext k
      simp [computePoolsStep]
    have h3 : poolsExpected (op :: rest) pools =
        poolsExpected rest
          (seqUpdate (fun k row => Matrix.vecMul row (op.mat k))
            (List.finRange N) pools) := rfl
    rw [h1, h2, h3, seqUpdate_finRange]
    exact ih _

/-- Claim C1: compute_pools applies the ops strictly in list order; within one
op every stand i with enabled[i] = true has its row replaced by the
vector-matrix product pools[i] * op.matrices[op.index[i]] while the other rows
are untouched, and with every stand enabled the result coincides with the
sequential per-stand numpy matmul reference loop (ops outer, stands inner) of
examples/pool_flux_matrix_ops.md. -/
theorem computePools_matches_reference_loop {N P : ℕ} (ops : List (Op N P))
    (op : Op N P) (rest : List (Op N P)) (pools : Pools N P)
    (enabled : Fin N → Bool) :
    computePools ops pools (fun _ => true) = poolsExpected ops pools ∧
    computePools (op :: rest) pools enabled =
      computePools rest
        (fun i =>
          if enabled i then Matrix.vecMul (pools i) (op.mat i) else pools i)
        enabled ∧
    computePools [] pools enabled = pools := by
  refine ⟨computePools_allEnabled ops pools, rfl, rfl⟩

/-- A flux indicator, as configured in examples/pool_flux_matrix_ops.md: a
process id and lists of source and sink pool indices. -/
structure FluxIndicator (P : ℕ) where
  process : ℕ
  sources : List (Fin P)
  sinks : List (Fin P)

/-- One cell of F = diag(pools_row) * (M - I), the per-stand flux matrix the
reference loop computes before applying an op's transform:
F[s, k] = row[s] * (M[s, k] - I[s, k]). -/
def fluxValue {P : ℕ} (row : Fin P → ℚ) (M : Matrix (Fin P) (Fin P) ℚ)
    (s k : Fin P) : ℚ :=
  row s * (M s k - if s = k then 1 else 0)

/-- The double sum the reference loop accumulates into
flux_expected[k, i_f]: the sum of F[src, sink] over the indicator's source
list and sink list. -/
def indicatorSum {P : ℕ} (f : FluxIndicator P) (row : Fin P → ℚ)
    (M : Matrix (Fin P) (Fin P) ℚ) : ℚ :=
  (f.sources.map (fun s => (f.sinks.map (fun k => fluxValue row M s k)).sum)).sum

/-- A per-stand table of (pool row, flux row) pairs: the joint state that
ComputeFlux mutates. -/
abbrev FluxState (N P F : ℕ) := Fin N → (Fin P → ℚ) × (Fin F → ℚ)

/-- Modelled from the spec: the ComputeFlux kernel entry point itself is not
among the repository sources.  One (op, process) of the kernel loop: every
stand i with enabled[i] = true first accumulates, for each indicator whose
process tag equals the op's process, the double sum of
diag(pools[i]) * (M - I) over the indicator's sources and sinks into its flux
cell, and then has its pool row replaced by pools[i] * M; stands with
enabled[i] = false are left untouched. -/
def computeFluxStep {N P F : ℕ} (fis : Fin F → FluxIndicator P) (op : Op N P)
    (proc : ℕ) (st : FluxState N P F) (enabled : Fin N → Bool) :
    FluxState N P F :=
  fun i =>
    if enabled i then
      (Matrix.vecMul (st i).1 (op.mat i),
       fun j =>
         (st i).2 j +
           if (fis j).process = proc then indicatorSum (fis j) (st i).1 (op.mat i)
           else 0)
    else st i

/-- Modelled from the spec: ComputeFlux applies the (op, process) pairs
strictly in list order, each pair transforming the enabled stands' rows as in
computeFluxStep. -/
def computeFlux {N P F : ℕ} (fis : Fin F → FluxIndicator P)
    (ops : List (Op N P × ℕ)) (st : FluxState N P F)
    (enabled : Fin N → Bool) : FluxState N P F :=
  ops.foldl (fun t op => computeFluxStep fis op.1 op.2 t enabled) st

/-- The per-stand body of the numpy reference loop flux_expected of
examples/pool_flux_matrix_ops.md (lines 371-384): from the current
(pools_working[k], flux_expected[k]) pair, first accumulate
flux[pool_index[src], pool_index[sink]] of diag(pools) * (mat - I) into every
indicator with matching process id, then replace pools_working[k] by
np.matmul(pools_working[k], mat). -/
def fluxExpectedBody {P F : ℕ} (fis : Fin F → FluxIndicator P)
    (M : Matrix (Fin P) (Fin P) ℚ) (proc : ℕ)
    (rowpair : (Fin P → ℚ) × (Fin F → ℚ)) : (Fin P → ℚ) × (Fin F → ℚ) :=
  (Matrix.vecMul rowpair.1 M,
   fun j =>
     rowpair.2 j +
       if (fis j).process = proc then indicatorSum (fis j) rowpair.1 M else 0)

/-- The numpy reference loop flux_expected of
examples/pool_flux_matrix_ops.md: iterate over the (op, process) pairs (outer
loop), then sequentially over the stands (inner loop), applying
fluxExpectedBody to stand k's row pair.  No enabled mask appears in the
reference loop. -/
def fluxExpected {N P F : ℕ} (fis : Fin F → FluxIndicator P)
    (ops : List (Op N P × ℕ)) (st : FluxState N P F) : FluxState N P F :=
  ops.foldl
    (fun t op =>
      seqUpdate (fun k rowpair => fluxExpectedBody fis (op.1.mat k) op.2 rowpair)
        (List.finRange N) t)
    st

lemma computeFlux_allEnabled {N P F : ℕ} (fis : Fin F → FluxIndicator P) :
    ∀ (ops : List (Op N P × ℕ)) (st : FluxState N P F),
      computeFlux fis ops st (fun _ => true) = fluxExpected fis ops st := by
  intro ops
  induction ops with
  | nil => intro st; rfl
  | cons op rest ih =>
    intro st
    have h1 : computeFlux fis (op :: rest) st (fun _ => true) =
        computeFlux fis rest (computeFluxStep fis op.1 op.2 st (fun _ => true))
          (fun _ => true) := rfl
    have h2 : computeFluxStep fis op.1 op.2 st (fun _ => true) =
        fun k => fluxExpectedBody fis (op.1.mat k) op.2 (st k) := by
      funext k
      simp [computeFluxStep, fluxExpectedBody]
    have h3 : fluxExpected fis (op :: rest) st =
        fluxExpected fis rest
          (seqUpdate (fun k rowpair => fluxExpectedBody fis (op.1.mat k) op.2 rowpair)
            (List.finRange N) st) := rfl
    rw [h1, h2, h3, seqUpdate_finRange]
    exact ih _

/-- Claim C2: for each (op, process) pair in order, compute_flux first
computes F = diag(pools[i]) * (M - I) on the pre-transform pool row and adds
its double sum over sources and sinks into flux[i, j] for exactly the
indicators j whose process tag equals the op's process tag (the others
receive 0 from that op), and only then replaces pools[i] with pools[i] * M;
with every stand enabled the result coincides with the numpy flux_expected
reference loop of examples/pool_flux_matrix_ops.md. -/
theorem computeFlux_matches_reference_loop {N P F : ℕ}
    (fis : Fin F → FluxIndicator P) (ops : List (Op N P × ℕ))
    (op : Op N P) (proc : ℕ) (st : FluxState N P F)
    (enabled : Fin N → Bool) (i : Fin N) (j : Fin F) :
    computeFlux fis ops st (fun _ => true) = fluxExpected fis ops st ∧
    ((computeFluxStep fis op proc st enabled i).2 j =
      (st i).2 j +
        if (fis j).process = proc ∧ enabled i = true then
          indicatorSum (fis j) (st i).1 (op.mat i)
        else 0) ∧
    ((computeFluxStep fis op proc st enabled i).1 =
      if enabled i = true then Matrix.vecMul (st i).1 (op.mat i)
      else (st i).1) := by
  refine ⟨computeFlux_allEnabled fis ops st, ?_, ?_⟩
  · by_cases he : enabled i
    · by_cases hp : (fis j).process = proc
      · simp [computeFluxStep, he, hp]
      · simp [computeFluxStep, he, hp]
    · simp [computeFluxStep, he]
  · by_cases he : enabled i
    · simp [computeFluxStep, he]
    · simp [computeFluxStep, he]

lemma computeFlux_state_decomp {N P F : ℕ} (fis : Fin F → FluxIndicator P)
    (enabled : Fin N → Bool) :
    ∀ (ops : List (Op N P × ℕ)) (st₁ st₂ : FluxState N P F),
      (∀ i, (st₁ i).1 = (st₂ i).1) →
      (∀ i, (computeFlux fis ops st₁ enabled i).1 =
        (computeFlux fis ops st₂ enabled i).1) ∧
      (∀ i j, (computeFlux fis ops st₁ enabled i).2 j - (st₁ i).2 j =
        (computeFlux fis ops st₂ enabled i).2 j - (st₂ i).2 j) := by
  intro ops
  induction ops with
  | nil =>
    intro st₁ st₂ h
    exact ⟨h, fun i j => by simp [computeFlux]⟩
  | cons op rest ih =>
    intro st₁ st₂ h
    have hpool : ∀ i, (computeFluxStep fis op.1 op.2 st₁ enabled i).1 =
        (computeFluxStep fis op.1 op.2 st₂ enabled i).1 := by
      intro i
      by_cases he : enabled i
      · simp [computeFluxStep, he, h i]
      · simp [computeFluxStep, he, h i]
    have hflux : ∀ i j,
        (computeFluxStep fis op.1 op.2 st₁ enabled i).2 j - (st₁ i).2 j =
        (computeFluxStep fis op.1 op.2 st₂ enabled i).2 j - (st₂ i).2 j := by
      intro i j
      by_cases he : enabled i
      · simp [computeFluxStep, he, h i]
      · simp [computeFluxStep, he]
    have step₁ : computeFlux fis (op :: rest) st₁ enabled =
        computeFlux fis rest (computeFluxStep fis op.1 op.2 st₁ enabled)
          enabled := rfl
    have step₂ : computeFlux fis (op :: rest) st₂ enabled =
        computeFlux fis rest (computeFluxStep fis op.1 op.2 st₂ enabled)
          enabled := rfl
    obtain ⟨ihpool, ihflux⟩ := ih (computeFluxStep fis op.1 op.2 st₁ enabled)
      (computeFluxStep fis op.1 op.2 st₂ enabled) hpool
    refine ⟨?_, ?_⟩
    · intro i; rw [step₁, step₂]; exact ihpool i
    · intro i j
      rw [step₁, step₂]
      have e₁ : (computeFlux fis rest (computeFluxStep fis op.1 op.2 st₁ enabled)
            enabled i).2 j - (st₁ i).2 j =
          ((computeFlux fis rest (computeFluxStep fis op.1 op.2 st₁ enabled)
            enabled i).2 j - (computeFluxStep fis op.1 op.2 st₁ enabled i).2 j) +
          ((computeFluxStep fis op.1 op.2 st₁ enabled i).2 j - (st₁ i).2 j) := by
        ring
      have e₂ : (computeFlux fis rest (computeFluxStep fis op.1 op.2 st₂ enabled)
            enabled i).2 j - (st₂ i).2 j =
          ((computeFlux fis rest (computeFluxStep fis op.1 op.2 st₂ enabled)
            enabled i).2 j - (computeFluxStep fis op.1 op.2 st₂ enabled i).2 j) +
          ((computeFluxStep fis op.1 op.2 st₂ enabled i).2 j - (st₂ i).2 j) := by
        ring
      rw [e₁, e₂, ihflux i j, hflux i j]

/-- The same flux state with the flux rows zeroed, as an all-zero caller
buffer would give. -/
def zeroFluxPart {N P F : ℕ} (st : FluxState N P F) : FluxState N P F :=
  fun k => ((st k).1, fun _ => 0)

/-- Claim C10: compute_flux accumulates into the caller-provided flux buffer
rather than overwriting it: starting from buffer st the flux cell equals the
initial cell plus the flux the same call computes from an all-zero buffer,
and the pool result does not depend on the initial flux buffer at all (in
particular the kernel never zeroes the buffer itself; resetting it between
timesteps is the caller's responsibility, as the flux.zero() call at the start
of every timestep of the model_definition notebook does). -/
theorem computeFlux_accumulates_into_buffer {N P F : ℕ}
    (fis : Fin F → FluxIndicator P) (ops : List (Op N P × ℕ))
    (st : FluxState N P F) (enabled : Fin N → Bool) (i : Fin N) (j : Fin F) :
    (computeFlux fis ops st enabled i).1 =
      (computeFlux fis ops (zeroFluxPart st) enabled i).1 ∧
    (computeFlux fis ops st enabled i).2 j =
      (st i).2 j + (computeFlux fis ops (zeroFluxPart st) enabled i).2 j := by
  obtain ⟨hpool, hflux⟩ := computeFlux_state_decomp fis enabled ops st
    (zeroFluxPart st) (fun _ => rfl)
  refine ⟨hpool i, ?_⟩
  have h := hflux i j
  have hz : (zeroFluxPart st i).2 j = 0 := rfl
  rw [hz, sub_zero] at h
  linarith

/-- A sequence of timesteps, each one kernel call over its own op list, as the
driver loops of the notebooks perform. -/
def runTimesteps {N P : ℕ} (steps : List (List (Op N P))) (pools : Pools N P)
    (enabled : Fin N → Bool) : Pools N P :=
  steps.foldl (fun p ops => computePools ops p enabled) pools

lemma computePools_disabled {N P : ℕ} (enabled : Fin N → Bool) (i : Fin N)
    (h : enabled i = false) :
    ∀ (ops : List (Op N P)) (pools : Pools N P),
      computePools ops pools enabled i = pools i := by
  intro ops
  induction ops with
  | nil => intro pools; rfl
  | cons op rest ih =>
    intro pools
    have hstep : computePoolsStep op pools enabled i = pools i := by
      simp [computePoolsStep, h]
    have : computePools (op :: rest) pools enabled =
        computePools rest (computePoolsStep op pools enabled) enabled := rfl
    rw [this, ih (computePoolsStep op pools enabled), hstep]

lemma computeFlux_disabled {N P F : ℕ} (fis : Fin F → FluxIndicator P)
    (enabled : Fin N → Bool) (i : Fin N) (h : enabled i = false) :
    ∀ (ops : List (Op N P × ℕ)) (st : FluxState N P F),
      computeFlux fis ops st enabled i = st i := by
  intro ops
  induction ops with
  | nil => intro st; rfl
  | cons op rest ih =>
    intro st
    have hstep : computeFluxStep fis op.1 op.2 st enabled i = st i := by
      simp [computeFluxStep, h]
    have : computeFlux fis (op :: rest) st enabled =
        computeFlux fis rest (computeFluxStep fis op.1 op.2 st enabled)
          enabled := rfl
    rw [this, ih (computeFluxStep fis op.1 op.2 st enabled), hstep]

lemma runTimesteps_disabled {N P : ℕ} (enabled : Fin N → Bool) (i : Fin N)
    (h : enabled i = false) :
    ∀ (steps : List (List (Op N P))) (pools : Pools N P),
      runTimesteps steps pools enabled i = pools i := by
  intro steps
  induction steps with
  | nil => intro pools; rfl
  | cons ops rest ih =>
    intro pools
    have : runTimesteps (ops :: rest) pools enabled =
        runTimesteps rest (computePools ops pools enabled) enabled := rfl
    rw [this, ih (computePools ops pools enabled),
      computePools_disabled enabled i h ops pools]

/-- Claim C7: a stand whose enabled flag is false has its row left exactly
unchanged by every compute_pools call, by every compute_flux call (pool row
and flux row alike), and across any number of successive timesteps; in
particular after 50 timesteps a stand disabled from the start still holds its
initial pools. -/
theorem disabled_stand_untouched {N P F : ℕ} (ops : List (Op N P))
    (fis : Fin F → FluxIndicator P) (fops : List (Op N P × ℕ))
    (steps : List (List (Op N P))) (pools : Pools N P) (st : FluxState N P F)
    (enabled : Fin N → Bool) (i : Fin N) (h : enabled i = false) :
    computePools ops pools enabled i = pools i ∧
    computeFlux fis fops st enabled i = st i ∧
    runTimesteps steps pools enabled i = pools i := by
  exact ⟨computePools_disabled enabled i h ops pools,
    computeFlux_disabled fis enabled i h fops st,
    runTimesteps_disabled enabled i h steps pools⟩

/-- The two-stand configuration of spec scenario S4: stand 0 enabled, stand 1
disabled, identical initial pools. -/
def s4enabled : Fin 2 → Bool := ![true, false]

def s4pools : Pools 2 2 := fun _ => ![1, 2]

def s4op : Op 2 2 := broadcastOp 2 !![1, 1/2; 0, 1]

def s4fis : Fin 1 → FluxIndicator 2 := fun _ => ⟨0, [0], [1]⟩

def s4st : FluxState 2 2 1 := fun _ => (![1, 2], fun _ => 0)

/-- Witness for claim C7: in the concrete scenario-S4 configuration, with
stand 1 disabled, a kernel call, a flux call and 50 successive timesteps all
leave stand 1's row equal to its initial value. -/
theorem disabled_stand_untouched_witness :
    s4enabled 1 = false ∧
    (computePools [s4op] s4pools s4enabled 1 = s4pools 1 ∧
      computeFlux s4fis [(s4op, 0)] s4st s4enabled 1 = s4st 1 ∧
      runTimesteps (List.replicate 50 [s4op]) s4pools s4enabled 1 =
        s4pools 1) :=
  ⟨by decide,
   disabled_stand_untouched [s4op] s4fis [(s4op, 0)]
     (List.replicate 50 [s4op]) s4pools s4st s4enabled 1 (by decide)⟩

/-- Follows the claim's words, for comparison with the source semantics: the
sum of pools_before[s] * M[s, k] over the indicator's sources and sinks
counted over off-diagonal cells only, diagonal cells contributing nothing. -/
def claimedIndicatorSum {P : ℕ} (f : FluxIndicator P) (row : Fin P → ℚ)
    (M : Matrix (Fin P) (Fin P) ℚ) : ℚ :=
  (f.sources.map
    (fun s => (f.sinks.map (fun k => if s = k then 0 else row s * M s k)).sum)).sum

/-- The diagonal cells' contribution to an indicator: for every pool in both
the source and the sink set, the retained-minus-identity term
row[s] * (M[s, s] - 1). -/
def diagonalPart {P : ℕ} (f : FluxIndicator P) (row : Fin P → ℚ)
    (M : Matrix (Fin P) (Fin P) ℚ) : ℚ :=
  (f.sources.map
    (fun s =>
      (f.sinks.map (fun k => if s = k then row s * (M s k - 1) else 0)).sum)).sum

lemma sum_map_add {α : Type} (l : List α) (f g : α → ℚ) :
    (l.map (fun x => f x + g x)).sum = (l.map f).sum + (l.map g).sum := by
  induction l with
  | nil => simp
  | cons a t ih => simp [ih]; ring

lemma sum_map_congr {α : Type} {l : List α} {f g : α → ℚ}
    (h : ∀ x ∈ l, f x = g x) : (l.map f).sum = (l.map g).sum := by
  induction l with
  | nil => rfl
  | cons a t ih =>
    simp only [List.map_cons, List.sum_cons]
    rw [h a (List.mem_cons_self a t), ih (fun x hx => h x (List.mem_cons_of_mem a hx))]

lemma sum_map_zero {α : Type} (l : List α) :
    (l.map (fun _ => (0 : ℚ))).sum = 0 := by
  induction l with
  | nil => rfl
  | cons a t ih => simp [ih]

lemma fluxValue_split {P : ℕ} (row : Fin P → ℚ) (M : Matrix (Fin P) (Fin P) ℚ)
    (s k : Fin P) :
    fluxValue row M s k =
      (if s = k then 0 else row s * M s k) +
        (if s = k then row s * (M s k - 1) else 0) := by
  by_cases h : s = k
  · simp [fluxValue, h]
  · simp [fluxValue, h]

lemma indicatorSum_split {P : ℕ} (f : FluxIndicator P) (row : Fin P → ℚ)
    (M : Matrix (Fin P) (Fin P) ℚ) :
    indicatorSum f row M = claimedIndicatorSum f row M + diagonalPart f row M := by
  unfold indicatorSum claimedIndicatorSum diagonalPart
  rw [← sum_map_add]
  apply sum_map_congr
  intro s _
  rw [← sum_map_add]
  apply sum_map_congr
  intro k _
  exact fluxValue_split row M s k

lemma diagonalPart_of_disjoint {P : ℕ} (f : FluxIndicator P)
    (row : Fin P → ℚ) (M : Matrix (Fin P) (Fin P) ℚ)
    (hdisj : ∀ s ∈ f.sources, s ∉ f.sinks) :
    diagonalPart f row M = 0 := by
  unfold diagonalPart
  rw [sum_map_congr (g := fun _ => (0 : ℚ)), sum_map_zero]
  intro s hs
  rw [sum_map_congr (g := fun _ => (0 : ℚ)), sum_map_zero]
  intro k hk
  have : s ≠ k := fun h => hdisj s hs (h ▸ hk)
  simp [this]

lemma singleStep_indicator_total {P : ℕ} (f : FluxIndicator P)
    (row : Fin P → ℚ) (M : Matrix (Fin P) (Fin P) ℚ) :
    ((computeFlux (fun _ : Fin 1 => f) [(broadcastOp 1 M, f.process)]
        (fun _ => (row, fun _ => 0)) (fun _ => true)) 0).2 0 =
      indicatorSum f row M := by
  simp [computeFlux, computeFluxStep, broadcastOp, Op.mat]

/-- Counterexample to claim C3 as stated: the notebook's own configuration of
an indicator whose source set and sink set overlap (sources = sinks = the
single pool a).  With pools_before[a] = 2 and M[a, a] = 1/2 the kernel's
single-step indicator total is 2 * (1/2 - 1) = -1, while the claim's
off-diagonal-only formula gives 0. -/
theorem overlapping_indicator_counterexample :
    ((computeFlux (fun _ : Fin 1 => (⟨2, [0], [0]⟩ : FluxIndicator 2))
        [(broadcastOp 1 !![1/2, 1/2; 0, 1], 2)]
        (fun _ => (![2, 0], fun _ => 0)) (fun _ => true)) 0).2 0 = -1 ∧
    claimedIndicatorSum (⟨2, [0], [0]⟩ : FluxIndicator 2) ![2, 0]
      !![1/2, 1/2; 0, 1] = 0 ∧
    ((computeFlux (fun _ : Fin 1 => (⟨2, [0], [0]⟩ : FluxIndicator 2))
        [(broadcastOp 1 !![1/2, 1/2; 0, 1], 2)]
        (fun _ => (![2, 0], fun _ => 0)) (fun _ => true)) 0).2 0 ≠
      claimedIndicatorSum (⟨2, [0], [0]⟩ : FluxIndicator 2) ![2, 0]
        !![1/2, 1/2; 0, 1] := by
  have h := singleStep_indicator_total (⟨2, [0], [0]⟩ : FluxIndicator 2)
    ![2, 0] !![1/2, 1/2; 0, 1]
  have hval : indicatorSum (⟨2, [0], [0]⟩ : FluxIndicator 2) ![2, 0]
      !![1/2, 1/2; 0, 1] = -1 := by
    simp [indicatorSum, fluxValue]
    norm_num
  have hclaim : claimedIndicatorSum (⟨2, [0], [0]⟩ : FluxIndicator 2) ![2, 0]
      !![1/2, 1/2; 0, 1] = 0 := by
    simp [claimedIndicatorSum]
  refine ⟨by rw [h, hval], hclaim, ?_⟩
  rw [h, hval, hclaim]
  norm_num

/-- Claim C3 as amended: for a single step applying one matrix M with a
matching-process indicator of source set S and sink set K, the indicator
total is the sum of pools_before[s] * (M[s, k] - I[s, k]) over S and K:
off-diagonal cells contribute pools_before[s] * M[s, k], while each diagonal
cell shared by S and K contributes the retained-mass correction
pools_before[s] * (M[s, s] - 1).  Only when S and K share no pool does the
total reduce to the off-diagonal-only sum of the original claim. -/
theorem indicator_total_formula {P : ℕ} (f : FluxIndicator P)
    (row : Fin P → ℚ) (M : Matrix (Fin P) (Fin P) ℚ) :
    ((computeFlux (fun _ : Fin 1 => f) [(broadcastOp 1 M, f.process)]
        (fun _ => (row, fun _ => 0)) (fun _ => true)) 0).2 0 =
      claimedIndicatorSum f row M + diagonalPart f row M ∧
    ((∀ s ∈ f.sources, s ∉ f.sinks) →
      ((computeFlux (fun _ : Fin 1 => f) [(broadcastOp 1 M, f.process)]
          (fun _ => (row, fun _ => 0)) (fun _ => true)) 0).2 0 =
        claimedIndicatorSum f row M) := by
  have h := singleStep_indicator_total f row M
  refine ⟨by rw [h, indicatorSum_split], ?_⟩
  intro hdisj
  rw [h, indicatorSum_split, diagonalPart_of_disjoint f row M hdisj, add_zero]

/-- Witness for claim C3's amended theorem, exercising both conjuncts: the
general formula at the overlapping configuration sources = sinks = [a] (where
the diagonal correction is what makes it true), and the disjoint reduction at
sources = [a], sinks = [b], where the total 2 * (1/2) = 1 agrees with the
off-diagonal-only formula. -/
theorem indicator_total_formula_witness :
    ((computeFlux (fun _ : Fin 1 => (⟨2, [0], [0]⟩ : FluxIndicator 2))
        [(broadcastOp 1 !![1/2, 1/2; 0, 1], 2)]
        (fun _ => (![2, 0], fun _ => 0)) (fun _ => true)) 0).2 0 =
      claimedIndicatorSum (⟨2, [0], [0]⟩ : FluxIndicator 2) ![2, 0]
          !![1/2, 1/2; 0, 1] +
        diagonalPart (⟨2, [0], [0]⟩ : FluxIndicator 2) ![2, 0]
          !![1/2, 1/2; 0, 1] ∧
    ((computeFlux (fun _ : Fin 1 => (⟨1, [0], [1]⟩ : FluxIndicator 2))
        [(broadcastOp 1 !![1/2, 1/2; 0, 1], 1)]
        (fun _ => (![2, 3], fun _ => 0)) (fun _ => true)) 0).2 0 =
      claimedIndicatorSum (⟨1, [0], [1]⟩ : FluxIndicator 2) ![2, 3]
        !![1/2, 1/2; 0, 1] :=
  ⟨(indicator_total_formula (⟨2, [0], [0]⟩ : FluxIndicator 2) ![2, 0]
      !![1/2, 1/2; 0, 1]).1,
   (indicator_total_formula (⟨1, [0], [1]⟩ : FluxIndicator 2) ![2, 3]
      !![1/2, 1/2; 0, 1]).2 (by decide)⟩

/-- The named matrix operations of the cbm_exn engine, as they appear in the
repository's operation documentation. -/
inductive OpName where
  | growth
  | snagTurnover
  | biomassTurnover
  | overmatureDecline
  | domDecay
  | slowDecay
  | slowMixing
  | disturbance
deriving DecidableEq

/-- The default order in which the spinup operations are applied within one
spinup timestep, transcribed from the repository's cbm_exn operation
documentation (the numbered list in .github/workflows/publish_docs.yml,
lines 478-487): growth, snag_turnover, biomass_turnover, overmature_decline,
growth, dom_decay, slow_decay, slow_mixing, disturbance. -/
def defaultSpinupOpSequence : List OpName :=
  [OpName.growth, OpName.snagTurnover, OpName.biomassTurnover,
   OpName.overmatureDecline, OpName.growth, OpName.domDecay,
   OpName.slowDecay, OpName.slowMixing, OpName.disturbance]

/-- Follows the claim's words, for comparison with the source list: growth
(half), biomass-turnover, snag-turnover, overmature_decline, growth (half),
dom_decay, slow_mixing, with biomass-turnover before snag-turnover and no
other ops interposed. -/
def claimedAnnualOpSequence : List OpName :=
  [OpName.growth, OpName.biomassTurnover, OpName.snagTurnover,
   OpName.overmatureDecline, OpName.growth, OpName.domDecay,
   OpName.slowMixing]

/-- Counterexample to claim C4 as stated: the default spinup op sequence of
the repository differs from the claimed one already at position 1, where the
source applies snag_turnover before biomass_turnover (and it further contains
slow_decay between dom_decay and slow_mixing, and a trailing disturbance op,
which the claimed sequence lacks). -/
theorem op_sequence_counterexample :
    defaultSpinupOpSequence ≠ claimedAnnualOpSequence ∧
    defaultSpinupOpSequence.get? 1 = some OpName.snagTurnover ∧
    claimedAnnualOpSequence.get? 1 = some OpName.biomassTurnover ∧
    OpName.slowDecay ∈ defaultSpinupOpSequence ∧
    OpName.slowDecay ∉ claimedAnnualOpSequence := by
  refine ⟨by decide, rfl, rfl, by decide, by decide⟩

/-- Claim C4 as amended: within one default spinup timestep the ops are
applied in the order growth, snag_turnover, biomass_turnover,
overmature_decline, growth, dom_decay, slow_decay, slow_mixing, disturbance:
growth is applied twice (positions 0 and 4), snag-turnover strictly precedes
biomass-turnover, and slow_decay sits between dom_decay and slow_mixing. -/
theorem op_sequence_order :
    defaultSpinupOpSequence.get? 0 = some OpName.growth ∧
    defaultSpinupOpSequence.get? 1 = some OpName.snagTurnover ∧
    defaultSpinupOpSequence.get? 2 = some OpName.biomassTurnover ∧
    defaultSpinupOpSequence.get? 3 = some OpName.overmatureDecline ∧
    defaultSpinupOpSequence.get? 4 = some OpName.growth ∧
    defaultSpinupOpSequence.get? 5 = some OpName.domDecay ∧
    defaultSpinupOpSequence.get? 6 = some OpName.slowDecay ∧
    defaultSpinupOpSequence.get? 7 = some OpName.slowMixing ∧
    defaultSpinupOpSequence.get? 8 = some OpName.disturbance ∧
    defaultSpinupOpSequence.length = 9 ∧
    List.indexOf OpName.snagTurnover defaultSpinupOpSequence <
      List.indexOf OpName.biomassTurnover defaultSpinupOpSequence ∧
    List.indexOf OpName.domDecay defaultSpinupOpSequence <
      List.indexOf OpName.slowDecay defaultSpinupOpSequence ∧
    List.indexOf OpName.slowDecay defaultSpinupOpSequence <
      List.indexOf OpName.slowMixing defaultSpinupOpSequence := by
  decide

/-! Pool indices of the eight-pool model_definition example (part of the
repository's model_definition notebook): Input, WoodyBiomass, Foliage,
SlowDOM, MediumDOM, FastDOM, CO2, Products. -/

def inputPool : Fin 8 := 0

def woodyBiomassPool : Fin 8 := 1

def foliagePool : Fin 8 := 2

def slowDOMPool : Fin 8 := 3

def mediumDOMPool : Fin 8 := 4

def fastDOMPool : Fin 8 := 5

def co2Pool : Fin 8 := 6

def productsPool : Fin 8 := 7

/-- A matrix given as a list of (source, sink, coefficient) coordinate
triples, as the create_operation calls of the notebooks give them: omitted
diagonal entries default to 1, omitted off-diagonal entries default to 0, and
an explicit entry overrides the default. -/
def coordMatrix (entries : List (Fin 8 × Fin 8 × ℚ)) :
    Matrix (Fin 8) (Fin 8) ℚ :=
  fun s k =>
    match entries.find? (fun e => decide (e.1 = s ∧ e.2.1 = k)) with
    | some e => e.2.2
    | none => if s = k then 1 else 0

/-- The growth op of the model_definition notebook (get_npp_matrix): flows
from the constant-1 Input pool into WoodyBiomass (npp) and Foliage (npp/10),
with all diagonals (the Input diagonal included) left at the implied 1. -/
def nppMatrix (npp : ℚ) : Matrix (Fin 8) (Fin 8) ℚ :=
  coordMatrix [(inputPool, woodyBiomassPool, npp),
    (inputPool, foliagePool, npp / 10)]

/-- The mortality op of the model_definition notebook
(get_mortality_matrix). -/
def mortalityMatrix : Matrix (Fin 8) (Fin 8) ℚ :=
  coordMatrix [(woodyBiomassPool, woodyBiomassPool, 1),
    (woodyBiomassPool, mediumDOMPool, 1/100),
    (foliagePool, foliagePool, 1),
    (foliagePool, fastDOMPool, 95/100)]

/-- The decay op of the model_definition notebook (get_decay_matrix). -/
def decayMatrix : Matrix (Fin 8) (Fin 8) ℚ :=
  coordMatrix [(slowDOMPool, slowDOMPool, 99/100),
    (slowDOMPool, co2Pool, 1/100),
    (mediumDOMPool, mediumDOMPool, 85/100),
    (mediumDOMPool, slowDOMPool, 10/100),
    (mediumDOMPool, co2Pool, 5/100),
    (fastDOMPool, fastDOMPool, 65/100),
    (fastDOMPool, mediumDOMPool, 25/100),
    (fastDOMPool, co2Pool, 10/100)]

/-- The no-disturbance matrix of the model_definition notebook: an empty
triple list, hence the identity. -/
def noDisturbanceMatrix : Matrix (Fin 8) (Fin 8) ℚ := coordMatrix []

/-- The fire disturbance matrix of the model_definition notebook. -/
def fireMatrix : Matrix (Fin 8) (Fin 8) ℚ :=
  coordMatrix [(woodyBiomassPool, woodyBiomassPool, 0),
    (woodyBiomassPool, co2Pool, 85/100),
    (woodyBiomassPool, mediumDOMPool, 15/100),
    (foliagePool, foliagePool, 0),
    (foliagePool, co2Pool, 95/100),
    (foliagePool, fastDOMPool, 5/100)]

/-- The harvest disturbance matrix of the model_definition notebook. -/
def harvestMatrix : Matrix (Fin 8) (Fin 8) ℚ :=
  coordMatrix [(woodyBiomassPool, woodyBiomassPool, 0),
    (woodyBiomassPool, productsPool, 85/100),
    (woodyBiomassPool, mediumDOMPool, 15/100),
    (foliagePool, foliagePool, 0),
    (foliagePool, fastDOMPool, 1)]

/-- A matrix writes nothing into pool ip and retains ip fully: its ip column
is the identity column.  Applying such a matrix on the right leaves the ip
entry of every pool vector unchanged. -/
def preservesPool {P : ℕ} (ip : Fin P) (M : Matrix (Fin P) (Fin P) ℚ) : Prop :=
  ∀ s, M s ip = if s = ip then 1 else 0

lemma vecMul_preservesPool {P : ℕ} (ip : Fin P) (M : Matrix (Fin P) (Fin P) ℚ)
    (h : preservesPool ip M) (row : Fin P → ℚ) :
    Matrix.vecMul row M ip = row ip := by
  have hsum : Matrix.vecMul row M ip = ∑ s, row s * M s ip := by
    simp [Matrix.vecMul, Matrix.dotProduct]
  rw [hsum]
  have : ∀ s, row s * M s ip = if s = ip then row s else 0 := by
    intro s
    rw [h s]
    by_cases hs : s = ip
    · simp [hs]
    · simp [hs]
  rw [Finset.sum_congr rfl (fun s _ => this s)]
  simp

lemma computePools_pool_invariant {N P : ℕ} (ip : Fin P)
    (enabled : Fin N → Bool) (i : Fin N) :
    ∀ (ops : List (Op N P)) (pools : Pools N P),
      (∀ op ∈ ops, ∀ m, preservesPool ip (op.matrices m)) →
      computePools ops pools enabled i ip = pools i ip := by
  intro ops
  induction ops with
  | nil => intro pools _; rfl
  | cons op rest ih =>
    intro pools hops
    have hstep : computePoolsStep op pools enabled i ip = pools i ip := by
      unfold computePoolsStep
      by_cases he : enabled i
      · simp only [he, if_true]
        exact vecMul_preservesPool ip (op.mat i)
          (hops op (List.mem_cons_self op rest) (op.matrixIndex i)) (pools i)
      · simp [he]
    have hr : computePools (op :: rest) pools enabled =
        computePools rest (computePoolsStep op pools enabled) enabled := rfl
    rw [hr, ih (computePoolsStep op pools enabled)
      (fun o ho m => hops o (List.mem_cons_of_mem op ho) m), hstep]

lemma computeFlux_pool_invariant {N P F : ℕ} (ip : Fin P)
    (fis : Fin F → FluxIndicator P) (enabled : Fin N → Bool) (i : Fin N) :
    ∀ (fops : List (Op N P × ℕ)) (st : FluxState N P F),
      (∀ op ∈ fops, ∀ m, preservesPool ip (op.1.matrices m)) →
      (computeFlux fis fops st enabled i).1 ip = (st i).1 ip := by
  intro fops
  induction fops with
  | nil => intro st _; rfl
  | cons op rest ih =>
    intro st hops
    have hstep : (computeFluxStep fis op.1 op.2 st enabled i).1 ip =
        (st i).1 ip := by
      unfold computeFluxStep
      by_cases he : enabled i
      · simp only [he, if_true]
        exact vecMul_preservesPool ip (op.1.mat i)
          (hops op (List.mem_cons_self op rest) (op.1.matrixIndex i)) ((st i).1)
      · simp [he]
    have hr : computeFlux fis (op :: rest) st enabled =
        computeFlux fis rest (computeFluxStep fis op.1 op.2 st enabled)
          enabled := rfl
    rw [hr, ih (computeFluxStep fis op.1 op.2 st enabled)
      (fun o ho m => hops o (List.mem_cons_of_mem op ho) m), hstep]

lemma nppMatrix_preservesInput (npp : ℚ) :
    preservesPool inputPool (nppMatrix npp) := by
  intro s; fin_cases s <;> rfl

lemma mortalityMatrix_preservesInput : preservesPool inputPool mortalityMatrix := by
  intro s; fin_cases s <;> rfl

lemma decayMatrix_preservesInput : preservesPool inputPool decayMatrix := by
  intro s; fin_cases s <;> rfl

lemma noDisturbanceMatrix_preservesInput :
    preservesPool inputPool noDisturbanceMatrix := by
  intro s; fin_cases s <;> rfl

lemma fireMatrix_preservesInput : preservesPool inputPool fireMatrix := by
  intro s; fin_cases s <;> rfl

lemma harvestMatrix_preservesInput : preservesPool inputPool harvestMatrix := by
  intro s; fin_cases s <;> rfl

/-- Claim C6: growth is encoded as flows out of the constant-1 Input pool
with a retained Input diagonal of 1, and none of the assembled ops of the
model_definition notebook (growth, mortality, decay, no-disturbance, fire,
harvest) writes into the Input pool; consequently, across any sequence of
compute_pools and compute_flux calls built from Input-preserving ops, every
stand whose Input entry is 1 keeps Input exactly 1. -/
theorem input_pool_stays_one {N P F : ℕ} (ip : Fin P) (ops : List (Op N P))
    (fis : Fin F → FluxIndicator P) (fops : List (Op N P × ℕ))
    (pools : Pools N P) (st : FluxState N P F) (enabled : Fin N → Bool)
    (i : Fin N) (npp : ℚ)
    (hops : ∀ op ∈ ops, ∀ m, preservesPool ip (op.matrices m))
    (hfops : ∀ op ∈ fops, ∀ m, preservesPool ip (op.1.matrices m))
    (hpools : pools i ip = 1) (hst : (st i).1 ip = 1) :
    computePools ops pools enabled i ip = 1 ∧
    (computeFlux fis fops st enabled i).1 ip = 1 ∧
    preservesPool inputPool (nppMatrix npp) ∧
    preservesPool inputPool mortalityMatrix ∧
    preservesPool inputPool decayMatrix ∧
    preservesPool inputPool noDisturbanceMatrix ∧
    preservesPool inputPool fireMatrix ∧
    preservesPool inputPool harvestMatrix := by
  refine ⟨?_, ?_, nppMatrix_preservesInput npp, mortalityMatrix_preservesInput,
    decayMatrix_preservesInput, noDisturbanceMatrix_preservesInput,
    fireMatrix_preservesInput, harvestMatrix_preservesInput⟩
  · rw [computePools_pool_invariant ip enabled i ops pools hops, hpools]
  · rw [computeFlux_pool_invariant ip fis enabled i fops st hfops, hst]

/-- The op list of one timestep of the model_definition notebook:
disturbance (fire), growth, mortality, decay, each broadcast to all stands. -/
def exampleTimestepOps : List (Op 1 8) :=
  [broadcastOp 1 fireMatrix, broadcastOp 1 (nppMatrix (1/50)),
   broadcastOp 1 mortalityMatrix, broadcastOp 1 decayMatrix]

/-- Witness for claim C6: running the model_definition notebook's four ops
over a stand whose pools start at Input = 1 leaves the Input entry exactly 1,
both through compute_pools and through compute_flux. -/
theorem input_pool_stays_one_witness :
    computePools exampleTimestepOps (fun _ _ => 1) (fun _ => true) 0
        inputPool = 1 ∧
    (computeFlux (fun _ : Fin 1 => (⟨0, [inputPool], [woodyBiomassPool]⟩ :
          FluxIndicator 8))
        (exampleTimestepOps.map (fun op => (op, 0)))
        (fun _ => ((fun _ => 1), fun _ => 0)) (fun _ => true) 0).1 inputPool =
      1 ∧
    preservesPool inputPool (nppMatrix (1/50)) ∧
    preservesPool inputPool mortalityMatrix ∧
    preservesPool inputPool decayMatrix ∧
    preservesPool inputPool noDisturbanceMatrix ∧
    preservesPool inputPool fireMatrix ∧
    preservesPool inputPool harvestMatrix :=
  input_pool_stays_one inputPool exampleTimestepOps
    (fun _ : Fin 1 => (⟨0, [inputPool], [woodyBiomassPool]⟩ : FluxIndicator 8))
    (exampleTimestepOps.map (fun op => (op, 0)))
    (fun _ _ => 1) (fun _ => ((fun _ => 1), fun _ => 0)) (fun _ => true) 0
    (1/50)
    (by
      intro op hop m
      simp only [exampleTimestepOps, List.mem_cons, List.not_mem_nil,
        or_false] at hop
      rcases hop with h | h | h | h <;> subst h
      · exact fun s => fireMatrix_preservesInput s
      · exact fun s => nppMatrix_preservesInput (1/50) s
      · exact fun s => mortalityMatrix_preservesInput s
      · exact fun s => decayMatrix_preservesInput s)
    (by
      intro op hop m
      simp only [exampleTimestepOps, List.map_cons, List.map_nil,
        List.mem_cons, List.not_mem_nil, or_false] at hop
      rcases hop with h | h | h | h <;> subst h
      · exact fun s => fireMatrix_preservesInput s
      · exact fun s => nppMatrix_preservesInput (1/50) s
      · exact fun s => mortalityMatrix_preservesInput s
      · exact fun s => decayMatrix_preservesInput s)
    rfl rfl

/-- The per-stand simulation variables an annual step works on.  The pools,
flux, state and parameters tables of cbm_vars, restricted to the fields the
step bookkeeping touches. -/
structure CBMState (N P F : ℕ) where
  pools : Pools N P
  flux : Fin N → Fin F → ℚ
  age : Fin N → ℕ
  regenerationDelay : Fin N → ℕ
  timeSinceLastDisturbance : Fin N → ℕ
  lastDisturbanceType : Fin N → ℕ
  disturbanceType : Fin N → ℕ
  enabled : Fin N → Bool

/-- Modelled from the spec: the step_start body is not among the repository
sources (its caller in the multi-stand-modelling notebook is).  It zeroes the
flux vector. -/
def step_start {N P F : ℕ} (v : CBMState N P F) : CBMState N P F :=
  { v with flux := fun _ _ => 0 }

/-- Modelled from the spec: step_disturbance evaluates the disturbance op
(keyed per stand by parameters.disturbance_type, type 0 being the identity)
through compute_flux, and records last_disturbance_type for the stands with a
non-zero disturbance type.  The op assembly itself is a collaborator, so the
phase is parameterized by the assembled (op, process) list. -/
def step_disturbance {N P F : ℕ} (fis : Fin F → FluxIndicator P)
    (dops : List (Op N P × ℕ)) (v : CBMState N P F) : CBMState N P F :=
  let st := computeFlux fis dops (fun i => (v.pools i, v.flux i)) v.enabled
  { v with
    pools := fun i => (st i).1
    flux := fun i => (st i).2
    lastDisturbanceType := fun i =>
      if v.disturbanceType i ≠ 0 then v.disturbanceType i
      else v.lastDisturbanceType i }

/-- Modelled from the spec: step_annual_process applies the assembled
annual-process (op, process) list through compute_flux. -/
def step_annual_process {N P F : ℕ} (fis : Fin F → FluxIndicator P)
    (aops : List (Op N P × ℕ)) (v : CBMState N P F) : CBMState N P F :=
  let st := computeFlux fis aops (fun i => (v.pools i, v.flux i)) v.enabled
  { v with
    pools := fun i => (st i).1
    flux := fun i => (st i).2 }

/-- Modelled from the spec: step_end advances each stand's age by one, except
stands disturbed this step whose age becomes 0; it also decrements
regeneration_delay and updates time_since_last_disturbance. -/
def step_end {N P F : ℕ} (v : CBMState N P F) : CBMState N P F :=
  { v with
    age := fun i => if v.disturbanceType i ≠ 0 then 0 else v.age i + 1
    regenerationDelay := fun i => v.regenerationDelay i - 1
    timeSinceLastDisturbance := fun i =>
      if v.disturbanceType i ≠ 0 then 0
      else v.timeSinceLastDisturbance i + 1 }

/-- One annual step: the four sub-phases composed in the order the step
function of the multi-stand-modelling notebook calls them:
step_start, step_disturbance, step_annual_process, step_end. -/
def step {N P F : ℕ} (fis : Fin F → FluxIndicator P)
    (dops aops : List (Op N P × ℕ)) (v : CBMState N P F) : CBMState N P F :=
  step_end (step_annual_process fis aops (step_disturbance fis dops (step_start v)))

/-- Claim C5: an annual step executes exactly the four sub-phases step_start,
step_disturbance, step_annual_process, step_end in that order (as the step
function of the multi-stand-modelling notebook composes them); step_start
zeroes the flux vector; and at step_end every stand's age advances by one
except stands disturbed this step, whose age becomes 0. -/
theorem step_subphases_and_age {N P F : ℕ} (fis : Fin F → FluxIndicator P)
    (dops aops : List (Op N P × ℕ)) (v : CBMState N P F) (i : Fin N)
    (j : Fin F) :
    step fis dops aops v =
      step_end
        (step_annual_process fis aops (step_disturbance fis dops (step_start v))) ∧
    (step_start v).flux i j = 0 ∧
    (step fis dops aops v).age i =
      (if v.disturbanceType i ≠ 0 then 0 else v.age i + 1) := by
  refine ⟨rfl, rfl, ?_⟩
  rfl

/-! Claim C9: the spec's DomainError validation, compared against the kernel
behaviour the repository's own randomized tests exercise.  The non-finite
part of the spec's check has no counterpart over exact rationals (there is no
NaN or infinity to test) and is left out of the model. -/

/-- The spec's DomainError conditions that are expressible over rationals. -/
inductive DomainErrorKind where
  | negativeCoefficient
  | rowSumExceeded
  | negativePools
deriving DecidableEq

/-- The total proportion routed out of source pool s by matrix M: the sum of
row s without its diagonal (retained) entry. -/
def rowOutflowSum {P : ℕ} (M : Matrix (Fin P) (Fin P) ℚ) (s : Fin P) : ℚ :=
  ∑ k, if k = s then 0 else M s k

/-- True when some pool value is negative. -/
def hasNegativePoolValue {N P : ℕ} (pools : Pools N P) : Bool :=
  decide (∃ i s, pools i s < 0)

/-- Modelled from the spec: a validating variant of ComputePools implementing
the DomainError contract of the spec's error-handling section (negative
matrix coefficients, more than 100 percent of a source pool routed out,
negative pool values after the step); reported as a fatal error, with no
clamping.  No such validation appears in the kernel behaviour the
repository's tests pin down; this definition exists to compare the spec's
words with that behaviour. -/
def computePoolsChecked {N P : ℕ} (ops : List (Op N P)) (pools : Pools N P)
    (enabled : Fin N → Bool) : Except DomainErrorKind (Pools N P) :=
  if ∃ op ∈ ops, ∃ m, ∃ s k, op.matrices m s k < 0 then
    Except.error DomainErrorKind.negativeCoefficient
  else if ∃ op ∈ ops, ∃ m, ∃ s, 1 < rowOutflowSum (op.matrices m) s then
    Except.error DomainErrorKind.rowSumExceeded
  else
    let r := computePools ops pools enabled
    if hasNegativePoolValue r then Except.error DomainErrorKind.negativePools
    else Except.ok r

/-- The offending matrix of the C9 counterexample: non-negative coefficients
whose source row 0 routes 120 percent of the pool out. -/
def c9mat : Matrix (Fin 2) (Fin 2) ℚ := !![0, 6/5; 0, 1]

/-- The offending pool bank of the C9 counterexample: a negative pool value,
exactly as the randomized ComputePools test of
examples/pool_flux_matrix_ops.md draws them (pools centred on 0). -/
def c9pools : Pools 1 2 := fun _ => ![-3, 0]

lemma c9mat_nonneg : ∀ s k, 0 ≤ c9mat s k := by
  intro s k
  fin_cases s <;> fin_cases k <;> norm_num [c9mat]

lemma c9_rowSum : rowOutflowSum c9mat 0 = 6/5 := by
  simp [rowOutflowSum, c9mat, Fin.sum_univ_two]

lemma c9_result : computePools [broadcastOp 1 c9mat] c9pools (fun _ => true) 0 =
    ![0, -18/5] := by
  funext k
  have h : computePools [broadcastOp 1 c9mat] c9pools (fun _ => true) 0 =
      Matrix.vecMul (c9pools 0) c9mat := by
    simp [computePools, computePoolsStep, broadcastOp, Op.mat]
  rw [h]
  fin_cases k
  · simp [Matrix.vecMul, Matrix.dotProduct, Fin.sum_univ_two, c9pools, c9mat]
  · simp [Matrix.vecMul, Matrix.dotProduct, Fin.sum_univ_two, c9pools, c9mat]
    norm_num

/-- Counterexample to claim C9 as stated: on an input with a negative pool
value and a source row routing 120 percent out - the very input family the
repository's randomized ComputePools test draws and expects to succeed,
matching the numpy matmul reference - the spec's validating kernel would
return a DomainError, but the kernel as pinned down by the repository's tests
computes the plain product (yielding a negative pool value, unclamped,
identical to the reference loop). -/
theorem domain_validation_counterexample :
    computePoolsChecked [broadcastOp 1 c9mat] c9pools (fun _ => true) =
      Except.error DomainErrorKind.rowSumExceeded ∧
    hasNegativePoolValue c9pools = true ∧
    computePools [broadcastOp 1 c9mat] c9pools (fun _ => true) =
      poolsExpected [broadcastOp 1 c9mat] c9pools ∧
    computePools [broadcastOp 1 c9mat] c9pools (fun _ => true) 0 =
      ![0, -18/5] := by
  refine ⟨?_, ?_, computePools_allEnabled _ _, c9_result⟩
  · unfold computePoolsChecked
    rw [if_neg, if_pos]
    · refine ⟨broadcastOp 1 c9mat, List.mem_singleton_self _, ⟨0, by decide⟩,
        0, ?_⟩
      rw [show (broadcastOp 1 c9mat).matrices ⟨0, by decide⟩ = c9mat from rfl,
        c9_rowSum]
      norm_num
    · rintro ⟨op, hop, m, s, k, hlt⟩
      rw [List.mem_singleton] at hop
      subst hop
      exact absurd hlt (not_lt.mpr (c9mat_nonneg s k))
  · rw [hasNegativePoolValue, decide_eq_true_eq]
    exact ⟨0, 0, by norm_num [c9pools]⟩

/-- Claim C9 as amended: the kernel, as exercised and pinned down by the
repository's own randomized tests, performs no domain validation: an input
with negative pool values and a source row routed out above 100 percent is
computed as the plain vector-matrix product, equal to the numpy matmul
reference, and the negative values it produces are returned unclamped.
(Non-finite inputs are outside the rational embedding and are not settled
here.) -/
theorem kernel_computes_unchecked {N P : ℕ} (op : Op N P) (pools : Pools N P)
    (enabled : Fin N → Bool) (i : Fin N) :
    computePools [op] pools enabled i =
      (if enabled i then Matrix.vecMul (pools i) (op.mat i) else pools i) ∧
    computePools [broadcastOp 1 c9mat] c9pools (fun _ => true) 0 =
      ![0, -18/5] ∧
    hasNegativePoolValue
      (computePools [broadcastOp 1 c9mat] c9pools (fun _ => true)) = true := by
  refine ⟨rfl, c9_result, ?_⟩
  rw [hasNegativePoolValue, decide_eq_true_eq]
  refine ⟨0, 1, ?_⟩
  rw [c9_result]
  norm_num

/-! Claim C8: the spinup state machine.  The spinup driver module is not
among the repository sources (only its notebook callers, parameter tables and
documentation are), so the machine is modelled from the spec's state
transitions; the example notebooks supply the concrete parameter values
(return_interval 125, min_rotations 10, max_rotations 30, ...). -/

/-- The spinup phases listed by the spec. -/
inductive SpinupPhase where
  | annualProcess
  | historicalDisturbance
  | growToFinalAge
  | lastPassDisturbance
  | growToFinalAge2
  | delayPhase
  | endPhase
deriving DecidableEq

/-- Modelled from the spec: the per-stand spinup parameters. -/
structure SpinupParams where
  returnInterval : ℕ
  minRotations : ℕ
  maxRotations : ℕ
  finalAge : ℕ
  delayYears : ℕ

/-- The pool dynamics the spinup loop drives, kept abstract over the pool
state type: the annual-process op sequence, the historical and last-pass
disturbance applications, the slow-pool total used by the convergence test,
and the convergence test itself. -/
structure SpinupDynamics (σ : Type) where
  annual : σ → σ
  histDisturbance : σ → σ
  lastPass : σ → σ
  slowTotal : σ → ℚ
  convergenceTest : ℚ → ℚ → Bool

/-- Modelled from the spec: the transient per-stand spinup state (rotation
counter, slow value at the last rotation, phase, and the per-stand converged
flag surfaced to debug reporting). -/
structure SpinupState (σ : Type) where
  pools : σ
  age : ℕ
  rotations : ℕ
  lastRotationSlow : ℚ
  delayRemaining : ℕ
  converged : Bool
  phase : SpinupPhase

/-- Modelled from the spec: the slow-pool convergence test,
|slow_current - last_rotation_slow| / max(slow_current, eps) < tau. -/
def specConvergenceTest (tau eps slowCurrent lastSlow : ℚ) : Bool :=
  decide (|slowCurrent - lastSlow| / max slowCurrent eps < tau)

/-- Modelled from the spec: one inner iteration of the spinup state machine.
In phase AnnualProcess the annual op sequence is applied and age
incremented; if age has reached return_interval and rotations < max_rotations
the convergence test runs - on success the phase advances to GrowToFinalAge
with the converged flag set, otherwise the historical disturbance is applied,
the slow value recorded, age reset and the rotation counter incremented; a
stand that has reached max_rotations without convergence advances to
GrowToFinalAge with the flag still false.  The later phases grow the stand to
its final age, apply the last-pass disturbance and run the delay years.  The
function is total: no iteration raises an error. -/
def spinupStep {σ : Type} (d : SpinupDynamics σ) (p : SpinupParams)
    (s : SpinupState σ) : SpinupState σ :=
  match s.phase with
  | SpinupPhase.annualProcess =>
    let pools1 := d.annual s.pools
    let age1 := s.age + 1
    let s1 :=
      if p.returnInterval ≤ age1 ∧ s.rotations < p.maxRotations then
        let slowCurrent := d.slowTotal pools1
        if p.minRotations ≤ s.rotations ∧
            d.convergenceTest slowCurrent s.lastRotationSlow = true then
          { s with pools := pools1, age := age1, converged := true,
                   phase := SpinupPhase.growToFinalAge }
        else
          { s with pools := d.histDisturbance pools1,
                   lastRotationSlow := slowCurrent, age := 0,
                   rotations := s.rotations + 1 }
      else
        { s with pools := pools1, age := age1 }
    if s1.phase = SpinupPhase.annualProcess ∧ s1.rotations = p.maxRotations then
      { s1 with phase := SpinupPhase.growToFinalAge }
    else s1
  | SpinupPhase.growToFinalAge =>
    if s.age = p.finalAge - 1 then
      { s with pools := d.lastPass s.pools, age := 0,
               phase := SpinupPhase.delayPhase }
    else
      { s with pools := d.annual s.pools, age := s.age + 1 }
  | SpinupPhase.delayPhase =>
    if 0 < s.delayRemaining then
      { s with pools := d.annual s.pools,
               delayRemaining := s.delayRemaining - 1 }
    else if s.age < p.finalAge then
      { s with pools := d.annual s.pools, age := s.age + 1 }
    else
      { s with phase := SpinupPhase.endPhase }
  | SpinupPhase.endPhase => s
  | _ => s

/-- Modelled from the spec: the initial spinup state of a stand - zero age,
zero rotations, phase AnnualProcess, converged flag down. -/
def spinupInit {σ : Type} (pools0 : σ) (p : SpinupParams) : SpinupState σ :=
  { pools := pools0, age := 0, rotations := 0, lastRotationSlow := 0,
    delayRemaining := p.delayYears, converged := false,
    phase := SpinupPhase.annualProcess }

lemma spinup_rotation {σ : Type} (d : SpinupDynamics σ) (p : SpinupParams)
    (hconv : ∀ a b, d.convergenceTest a b = false) :
    ∀ (k : ℕ) (s : SpinupState σ), 1 ≤ k →
      s.phase = SpinupPhase.annualProcess → s.rotations < p.maxRotations →
      s.age + k = p.returnInterval →
      ((spinupStep d p)^[k] s).rotations = s.rotations + 1 ∧
      ((spinupStep d p)^[k] s).age = 0 ∧
      ((spinupStep d p)^[k] s).converged = s.converged ∧
      ((spinupStep d p)^[k] s).phase =
        (if s.rotations + 1 = p.maxRotations then SpinupPhase.growToFinalAge
         else SpinupPhase.annualProcess) := by
  intro k
  induction k with
  | zero => intro s h1; exact absurd h1 (by omega)
  | succ k ih =>
    intro s _ hphase hrot hage
    obtain ⟨pl, ag, rot, ls, dr, cv, ph⟩ := s
    simp only at hphase hrot hage ⊢
    subst hphase
    by_cases hk : k = 0
    · subst hk
      rw [Function.iterate_one]
      have hcond : p.returnInterval ≤ ag + 1 ∧ rot < p.maxRotations :=
        ⟨by omega, hrot⟩
      have hinner : ¬(p.minRotations ≤ rot ∧
          d.convergenceTest (d.slowTotal (d.annual pl)) ls = true) := by
        rintro ⟨_, hc⟩
        rw [hconv] at hc
        exact Bool.false_ne_true hc
      simp only [spinupStep, hcond, and_self, if_true, if_pos hcond,
        if_neg hinner]
      by_cases hm : rot + 1 = p.maxRotations
      all_goals simp_all
    · have hk1 : 1 ≤ k := Nat.one_le_iff_ne_zero.mpr hk
      rw [Function.iterate_succ_apply]
      have hlt : ¬(p.returnInterval ≤ ag + 1 ∧ rot < p.maxRotations) := by
        rintro ⟨h, _⟩
        omega
      have hne : rot ≠ p.maxRotations := by omega
      have hstep : spinupStep d p ⟨pl, ag, rot, ls, dr, cv,
          SpinupPhase.annualProcess⟩ =
          ⟨d.annual pl, ag + 1, rot, ls, dr, cv,
            SpinupPhase.annualProcess⟩ := by
        simp only [spinupStep, if_neg hlt]
        rw [if_neg]
        rintro ⟨_, h⟩
        exact hne h
      rw [hstep]
      exact ih ⟨d.annual pl, ag + 1, rot, ls, dr, cv,
        SpinupPhase.annualProcess⟩ hk1 rfl hrot
        (show ag + 1 + k = p.returnInterval by omega)

lemma spinup_rotations {σ : Type} (d : SpinupDynamics σ) (p : SpinupParams)
    (hconv : ∀ a b, d.convergenceTest a b = false)
    (hret : 1 ≤ p.returnInterval) :
    ∀ (m : ℕ) (s : SpinupState σ), 1 ≤ m →
      s.phase = SpinupPhase.annualProcess → s.age = 0 →
      s.rotations + m = p.maxRotations →
      ((spinupStep d p)^[m * p.returnInterval] s).rotations =
        p.maxRotations ∧
      ((spinupStep d p)^[m * p.returnInterval] s).converged = s.converged ∧
      ((spinupStep d p)^[m * p.returnInterval] s).phase =
        SpinupPhase.growToFinalAge := by
  intro m
  induction m with
  | zero => intro s h1; exact absurd h1 (by omega)
  | succ m ih =>
    intro s _ hphase hage hrots
    have hrot : s.rotations < p.maxRotations := by omega
    have h1 := spinup_rotation d p hconv p.returnInterval s hret hphase hrot
      (by omega)
    rcases h1 with ⟨ha, hb, hc, hd⟩
    by_cases hm : m = 0
    · subst hm
      have hmax : s.rotations + 1 = p.maxRotations := by omega
      rw [if_pos hmax] at hd
      rw [Nat.one_mul]
      exact ⟨by rw [ha, hmax], hc, hd⟩
    · have hm1 : 1 ≤ m := Nat.one_le_iff_ne_zero.mpr hm
      have hmax : s.rotations + 1 ≠ p.maxRotations := by omega
      rw [if_neg hmax] at hd
      have hsucc : (m + 1) * p.returnInterval =
          m * p.returnInterval + p.returnInterval := by ring
      rw [hsucc, Function.iterate_add_apply]
      have := ih ((spinupStep d p)^[p.returnInterval] s) hm1 hd hb
        (by rw [ha]; omega)
      rcases this with ⟨x, y, z⟩
      exact ⟨x, y.trans hc, z⟩

/-- Claim C8: spinup terminates for every stand.  If the slow-pool
convergence test is never satisfied, the stand still exits the
historical-rotation loop after exactly max_rotations rotations - after
max_rotations * return_interval inner iterations the rotation counter equals
max_rotations and the phase has advanced to GrowToFinalAge, so the stand
proceeds to its final inventory conditions; the step function is total, so no
error is raised, and the non-convergence is surfaced only through the
per-stand converged flag, which is still false. -/
theorem spinup_exits_after_max_rotations {σ : Type} (d : SpinupDynamics σ)
    (p : SpinupParams) (pools0 : σ)
    (hconv : ∀ a b, d.convergenceTest a b = false)
    (hret : 1 ≤ p.returnInterval) (hmax : 1 ≤ p.maxRotations) :
    ((spinupStep d p)^[p.maxRotations * p.returnInterval]
        (spinupInit pools0 p)).rotations = p.maxRotations ∧
    ((spinupStep d p)^[p.maxRotations * p.returnInterval]
        (spinupInit pools0 p)).phase = SpinupPhase.growToFinalAge ∧
    ((spinupStep d p)^[p.maxRotations * p.returnInterval]
        (spinupInit pools0 p)).converged = false := by
  have h := spinup_rotations d p hconv hret p.maxRotations
    (spinupInit pools0 p) hmax rfl rfl (by simp [spinupInit])
  exact ⟨h.1, h.2.2, h.2.1⟩

lemma specConvergenceTest_zero_tau (a b : ℚ) :
    specConvergenceTest 0 1 a b = false := by
  rw [specConvergenceTest, decide_eq_false_iff_not, not_lt]
  exact div_nonneg (abs_nonneg _) (le_trans zero_le_one (le_max_right a 1))

/-- A concrete spinup dynamics for the C8 witness: trivial pool state, the
spec's convergence formula with tolerance 0, which never passes. -/
def c8dynamics : SpinupDynamics Unit :=
  ⟨id, id, id, fun _ => 0, specConvergenceTest 0 1⟩

/-- Concrete spinup parameters for the C8 witness: return_interval 2,
min_rotations 1, max_rotations 3. -/
def c8params : SpinupParams := ⟨2, 1, 3, 0, 0⟩

/-- Witness for claim C8: with a convergence test that never passes,
return_interval 2 and max_rotations 3, the stand exits the rotation loop
after 3 * 2 inner iterations with rotation counter 3, phase GrowToFinalAge
and the converged flag still false. -/
theorem spinup_exits_after_max_rotations_witness :
    ((spinupStep c8dynamics c8params)^[c8params.maxRotations *
        c8params.returnInterval] (spinupInit () c8params)).rotations =
      c8params.maxRotations ∧
    ((spinupStep c8dynamics c8params)^[c8params.maxRotations *
        c8params.returnInterval] (spinupInit () c8params)).phase =
      SpinupPhase.growToFinalAge ∧
    ((spinupStep c8dynamics c8params)^[c8params.maxRotations *
        c8params.returnInterval] (spinupInit () c8params)).converged =
      false :=
  spinup_exits_after_max_rotations c8dynamics c8params ()
    (fun a b => specConvergenceTest_zero_tau a b) (by decide) (by decide)

end LibCBM
